import Mathlib

/-!
Verification of the `god` process supervisor (src/main.go) against its
natural-language specification.  The Go source is shallowly embedded:
pure data flow becomes Lean functions, the in-place mutation of each
`Process` struct becomes explicit state passing, and the interaction with
the external execution primitive (os/exec) is a per-task outcome record.
-/

namespace God

/-- Task kind, from `TaskType` in src/main.go (lines 21-26). -/
inductive TaskType where
  | Init
  | Service
deriving DecidableEq, Repr

/-- One managed process, from the `Process` struct in src/main.go
(lines 28-37).  The `mu sync.Mutex` field is modelled separately by the
access transcription further below; the Go zero values of the mutable
fields (`Alive=false`, `ExitCode=0`, `Success=false`) are the defaults,
matching the state `AddProcess` produces (lines 75-80). -/
structure Process where
  name : String
  command : String
  type : TaskType
  alive : Bool := false
  exitCode : Int := 0
  success : Bool := false
deriving DecidableEq, Repr

/-- The test `proc.Type == TaskTypeInit` used by `Start` (line 130). -/
def isInit (p : Process) : Bool :=
  match p.type with
  | TaskType.Init => true
  | TaskType.Service => false

/-- Result of `Cmd.Start()` for one task: `ok`, or an error (executable
missing, permission denied, ...). -/
inductive StartResult where
  | ok
  | startErr
deriving DecidableEq, Repr

/-- Result of `Cmd.Wait()` for one task, following the documented
`os/exec` behaviour: `nil` when the process exits with status 0
(`WaitResult.ok`), an `*exec.ExitError` whose `ExitCode()` is `code`
otherwise, or some other (non-ExitError) failure. -/
inductive WaitResult where
  | ok
  | exitErr (code : Int)
  | otherErr
deriving DecidableEq, Repr

/-- Per-task outcome of the external execution primitive: what
`Cmd.Start` and then `Cmd.Wait` report for this task in this run. -/
structure RunEnv where
  start : StartResult
  wait : WaitResult
deriving DecidableEq, Repr

/-- OS-level fate of a launched process: normal exit with a status, or
termination by a signal. -/
inductive ProcExit where
  | exited (status : Nat)
  | signaled
deriving DecidableEq, Repr

/-- Documented `os/exec` semantics connecting the OS-level fate of a
process to what `Cmd.Wait`/`ExitCode()` report: `Wait` returns `nil` on
exit status 0, an `ExitError` carrying the status on a non-zero exit,
and an `ExitError` whose `ExitCode()` is `-1` on signal termination. -/
def waitOf : ProcExit → WaitResult
  | ProcExit.exited 0 => WaitResult.ok
  | ProcExit.exited s => WaitResult.exitErr s
  | ProcExit.signaled => WaitResult.exitErr (-1)

/-- Embedding of `Manager.runInitTask`, src/main.go lines 181-226, as a state
transformer on the task it drives.  On launch failure it records
`Success=false`, `ExitCode=-1` and returns (lines 190-197); otherwise it
sets `Alive=true` (line 199), waits, records the exit according to the
`Wait` result (lines 203-223), and finally sets `Alive=false`
(line 225). -/
def runInitTask (p : Process) (env : RunEnv) : Process :=
  match env.start with
  | StartResult.startErr => { p with success := false, exitCode := -1 }
  | StartResult.ok =>
    let p1 := { p with alive := true }
    let p2 :=
      match env.wait with
      | WaitResult.exitErr c => { p1 with exitCode := c, success := c == 0 }
      | WaitResult.otherErr => { p1 with success := false, exitCode := -1 }
      | WaitResult.ok => { p1 with exitCode := 0, success := true }
    { p2 with alive := false }

/-- Embedding of `Manager.runServiceTask`, src/main.go lines 229-255.  On launch
failure it sets `Alive=false` and returns (lines 238-242); otherwise it
sets `Alive=true` (line 244), waits — the `Wait` result is only logged,
no field is written from it (lines 248-252) — and sets `Alive=false`
(line 254).  The process is never relaunched. -/
def runServiceTask (p : Process) (env : RunEnv) : Process :=
  match env.start with
  | StartResult.startErr => { p with alive := false }
  | StartResult.ok =>
    let p1 := { p with alive := true }
    { p1 with alive := false }

/-- Observable events of one run of `Manager.Start`.  `initTerminal n`
marks the runner of init task `n` returning (its goroutine finishing,
which `initWg.Wait()` joins on); `evalPhase b` marks the evaluation of
the all-init-tasks-succeeded condition with result `b` (lines 147-155);
`closeGate` marks `close(m.initDone)` (line 159 or 166);
`launchService n` marks `go m.runServiceTask(proc)` for task `n`
(line 173). -/
inductive Event where
  | initTerminal (name : String)
  | evalPhase (allSuccess : Bool)
  | closeGate
  | launchService (name : String)
deriving DecidableEq, Repr

/-- Result of `Manager.Start`: the manager processes after the init
phase (service runners execute asynchronously after `Start` returns, so
service entries are still in their pre-launch state here), whether
`m.initDone` is closed, whether `Start` returned an error, and the
event trace of the run. -/
structure StartState where
  procs : List Process
  initDone : Bool
  err : Bool
  trace : List Event
deriving DecidableEq, Repr

/-- The `initTasks` partition built by `Start` (lines 129-135). -/
def initTasksOf (tasks : List (Process × RunEnv)) : List (Process × RunEnv) :=
  tasks.filter fun pe => isInit pe.1

/-- The `serviceTasks` partition built by `Start` (lines 129-135). -/
def serviceTasksOf (tasks : List (Process × RunEnv)) : List (Process × RunEnv) :=
  tasks.filter fun pe => !isInit pe.1

/-- The task states after the init phase: each init task transformed by
its runner (all init goroutines have been joined by `initWg.Wait()`),
service tasks still untouched. -/
def stepProcs (tasks : List (Process × RunEnv)) : List Process :=
  tasks.map fun pe => if isInit pe.1 then runInitTask pe.1 pe.2 else pe.1

/-- The launch events of the service phase, in partition order
(lines 171-174). -/
def launchEventsOf (tasks : List (Process × RunEnv)) : List Event :=
  (serviceTasksOf tasks).map fun pe => Event.launchService pe.1.name

/-- The init-runner termination events, in the completion order of that
run. -/
def initTraceOf (initOrder : List (Process × RunEnv)) : List Event :=
  initOrder.map fun pe => Event.initTerminal pe.1.name

/-- The `allInitSuccess` condition evaluated on lines 147-155: every
init task recorded `Success=true`. -/
def allInitSuccessOf (tasks : List (Process × RunEnv)) : Bool :=
  ((initTasksOf tasks).map fun pe => runInitTask pe.1 pe.2).all fun p => p.success

/-- Embedding of `Manager.Start`, src/main.go lines 122-178.  Each task is paired
with the outcome its execution primitive will report.  The init-task
goroutines may finish in any interleaving, so the order in which their
terminal states appear is a parameter `initOrder` (the theorems below
quantify over every permutation of the init partition); `initWg.Wait()`
(line 144) joins all of them before the success evaluation.  When some
init task recorded `Success=false`, `Start` closes `initDone` and
returns an error without launching any service (lines 157-161);
otherwise it closes `initDone` (line 166) and launches every service
task (lines 169-175).  With no init tasks the gate is closed
immediately. -/
def start (tasks initOrder : List (Process × RunEnv)) : StartState :=
  if (initTasksOf tasks).isEmpty then
    ⟨stepProcs tasks, true, false, Event.closeGate :: launchEventsOf tasks⟩
  else if allInitSuccessOf tasks then
    ⟨stepProcs tasks, true, false,
      initTraceOf initOrder ++ Event.evalPhase true :: Event.closeGate :: launchEventsOf tasks⟩
  else
    ⟨stepProcs tasks, true, true,
      initTraceOf initOrder ++ [Event.evalPhase false, Event.closeGate]⟩

/-- The body of the per-task loop of `Manager.HealthCheckHandler`,
src/main.go lines 287-306: the accumulated response text and the
`allHealthy` flag, threaded through the tasks in order. -/
def healthLoop (procs : List Process) (response : String) (allHealthy : Bool) :
    String × Bool :=
  match procs with
  | [] => (response, allHealthy)
  | p :: rest =>
    match p.type with
    | TaskType.Service =>
      if !p.alive then healthLoop rest (response ++ (p.name ++ ": Unhealthy\n")) false
      else healthLoop rest (response ++ (p.name ++ ": Healthy\n")) allHealthy
    | TaskType.Init =>
      if p.success then healthLoop rest (response ++ (p.name ++ ": Completed\n")) allHealthy
      else healthLoop rest (response ++ (p.name ++ ": Failed\n")) false

/-- Embedding of `Manager.HealthCheckHandler`, src/main.go lines 271-321, as a pure
query: given the current task states and whether `m.initDone` is closed
(the non-blocking `select`/`default` test, lines 284-311), it yields the
HTTP status code and the response body. -/
def healthCheck (procs : List Process) (initDone : Bool) : Nat × String :=
  if procs.length = 0 then
    (200, "Health Check:\n" ++ "No processes configured\n")
  else if initDone then
    let rb := healthLoop procs "Health Check:\n" true
    (if rb.2 then 200 else 500, rb.1)
  else
    (500, "Health Check:\n" ++ "Initialization in progress...\n")

/-- Declarative form of the one line `HealthCheckHandler` renders for a
task: services read `Healthy`/`Unhealthy` keyed on `alive`, init tasks
`Completed`/`Failed` keyed on `success` (src/main.go lines 288-305). -/
def taskLine (p : Process) : String :=
  match p.type with
  | TaskType.Service =>
    if p.alive then p.name ++ ": Healthy\n" else p.name ++ ": Unhealthy\n"
  | TaskType.Init =>
    if p.success then p.name ++ ": Completed\n" else p.name ++ ": Failed\n"

/-- Whether the line rendered for a task is the positive variant. -/
def taskHealthy (p : Process) : Bool :=
  match p.type with
  | TaskType.Service => p.alive
  | TaskType.Init => p.success

/-- Concatenation of the per-task lines, in task order. -/
def renderLines (procs : List Process) : String :=
  match procs with
  | [] => ""
  | p :: rest => taskLine p ++ renderLines rest

/-- Go `unicode.IsSpace` restricted to the Latin-1 range, the set
`strings.TrimSpace` trims: space, tab, newline, vertical tab, form
feed, carriage return, NEL and NBSP. -/
def goIsSpace (c : Char) : Bool :=
  c = ' ' || c = '\t' || c = '\n' || c = '\x0b' || c = '\x0c' || c = '\r' ||
    c = '\x85' || c = '\xa0'

/-- Go `strings.TrimSpace`: drop leading and trailing whitespace. -/
def trimSpace (s : String) : String :=
  (((s.toList.dropWhile goIsSpace).reverse.dropWhile goIsSpace).reverse).asString

/-- Split at the first colon, if any: the pair of the characters before
it and the characters after it.  `strings.SplitN(s, ":", 2)` returns two
pieces exactly when this is `some`. -/
def splitFirstColon : List Char → Option (List Char × List Char)
  | [] => none
  | c :: rest =>
    if c = ':' then some ([], rest)
    else
      match splitFirstColon rest with
      | none => none
      | some ab => some (c :: ab.1, ab.2)

/-- The alias/command split applied to one raw `-i`/`-c` item, from the
two identical loops in `main`, src/main.go lines 364-381 and 384-401:
`parts := strings.SplitN(cmdStr, ":", 2)`; with two parts the alias is
the trimmed text before the first colon and the command the trimmed
text after it; with one part (no colon anywhere) the alias is
auto-generated from the prefix (`"init"`/`"app"`) and the 1-based item
index, and the command is the whole trimmed item. -/
def parseCommandItem (pfx : String) (i : Nat) (cmdStr : String) : String × String :=
  match splitFirstColon cmdStr.toList with
  | some ab => (trimSpace ab.1.asString, trimSpace ab.2.asString)
  | none => (pfx ++ Nat.repr (i + 1), trimSpace cmdStr)

/-- Modelled from the spec: the alias/command split rule as the
specification words it — the first colon is treated as the separator
only if it appears before any whitespace in the string; otherwise the
whole string is the command and the alias is auto-generated.  Stated
here only to be compared with `parseCommandItem`, the rule the source
implements. -/
def specSplitCommand (pfx : String) (i : Nat) (cmdStr : String) : String × String :=
  let beforeSpace := cmdStr.toList.takeWhile fun c => !goIsSpace c
  if beforeSpace.contains ':' then
    match splitFirstColon cmdStr.toList with
    | some ab => (trimSpace ab.1.asString, trimSpace ab.2.asString)
    | none => (pfx ++ Nat.repr (i + 1), trimSpace cmdStr)
  else
    (pfx ++ Nat.repr (i + 1), trimSpace cmdStr)

/-- Go `strings.Split(s, "\n")` on the character list of `s`: the
newline-separated segments, always one more segment than there are
newlines. -/
def goSplitNl : List Char → List (List Char)
  | [] => [[]]
  | c :: rest =>
    match goSplitNl rest with
    | [] => [[]]
    | s :: ss => if c = '\n' then [] :: s :: ss else (c :: s) :: ss

/-- The loop of `prefixedWriter.Write`, src/main.go lines 104-117,
over the segments produced by splitting the input on newlines.  `total`
is the segment count, `i` the current index.  Every segment other than
the first and the last gets a newline prepended (lines 105-108); a
non-empty (possibly newline-prepended) segment is forwarded to the
underlying writer as `"[" ++ name ++ "] " ++ segment` (lines 110-115);
the returned count accumulates the segment lengths (line 116). -/
def pwLoop (name : List Char) (total : Nat) :
    List (List Char) → Nat → Nat × List (List Char)
  | [], _ => (0, [])
  | seg :: rest, i =>
    let line := if 0 < i ∧ i < total - 1 then '\n' :: seg else seg
    let r := pwLoop name total rest (i + 1)
    let ws := if line = [] then r.2 else (('[' :: name) ++ (']' :: ' ' :: line)) :: r.2
    (line.length + r.1, ws)

/-- Embedding of `prefixedWriter.Write`, src/main.go lines 96-120, on the character
content of the input: the returned count and the list of chunks written
to the underlying writer, in order.  An empty input returns `(0, nil)`
without writing (lines 97-99). -/
def prefixedWriterWrite (name p : List Char) : Nat × List (List Char) :=
  if p.length = 0 then (0, [])
  else
    let lines := goSplitNl p
    pwLoop name lines.length lines 0

/-- Fields of the per-task mutable triple. -/
inductive Field where
  | alive
  | exitCode
  | success
deriving DecidableEq, Repr

/-- Read or write. -/
inductive AccessKind where
  | read
  | write
deriving DecidableEq, Repr

/-- One access to a task field, with the flag recording whether the
per-task mutex `proc.mu` is held at that statement. -/
structure Access where
  field : Field
  kind : AccessKind
  underLock : Bool
deriving DecidableEq, Repr

/-- The accesses `Manager.runInitTask` (src/main.go lines 181-226)
performs on its task, in program order, transcribed statement by
statement.  `proc.Alive = true` (line 199) and `proc.Alive = false`
(line 225) occur outside any `proc.mu.Lock()`/`Unlock()` pair; the
`ExitCode`/`Success` assignments occur inside one (lines 192-195,
205-208, 211-214, 218-221); the log statement on line 209 reads
`proc.ExitCode` after the unlock. -/
def runInitTaskAccesses (env : RunEnv) : List Access :=
  match env.start with
  | StartResult.startErr =>
    [⟨Field.success, AccessKind.write, true⟩, ⟨Field.exitCode, AccessKind.write, true⟩]
  | StartResult.ok =>
    ⟨Field.alive, AccessKind.write, false⟩ ::
    ((match env.wait with
      | WaitResult.exitErr _ =>
        [⟨Field.exitCode, AccessKind.write, true⟩,
         ⟨Field.exitCode, AccessKind.read, true⟩,
         ⟨Field.success, AccessKind.write, true⟩,
         ⟨Field.exitCode, AccessKind.read, false⟩]
      | WaitResult.otherErr =>
        [⟨Field.success, AccessKind.write, true⟩, ⟨Field.exitCode, AccessKind.write, true⟩]
      | WaitResult.ok =>
        [⟨Field.exitCode, AccessKind.write, true⟩, ⟨Field.success, AccessKind.write, true⟩]) ++
      [⟨Field.alive, AccessKind.write, false⟩])

/-- The accesses `Manager.runServiceTask` (src/main.go lines 229-255)
performs on its task: every `Alive` assignment (lines 240, 244, 254) is
outside the lock. -/
def runServiceTaskAccesses (env : RunEnv) : List Access :=
  match env.start with
  | StartResult.startErr => [⟨Field.alive, AccessKind.write, false⟩]
  | StartResult.ok =>
    [⟨Field.alive, AccessKind.write, false⟩, ⟨Field.alive, AccessKind.write, false⟩]

/-- The accesses `Manager.HealthCheckHandler` (src/main.go
lines 287-306) performs on one task: for a service it reads
`proc.Alive` (line 289) without taking `proc.mu`; for an init task it
reads `proc.Success` (line 298) between `proc.mu.Lock()` and
`proc.mu.Unlock()`. -/
def healthTaskAccesses (p : Process) : List Access :=
  match p.type with
  | TaskType.Service => [⟨Field.alive, AccessKind.read, false⟩]
  | TaskType.Init => [⟨Field.success, AccessKind.read, true⟩]

/-- Sample run: one init task that exits with status 1, then one
service task.  Used by the witnesses below. -/
def tasksFailingInit : List (Process × RunEnv) :=
  [({ name := "init1", command := "setup", type := TaskType.Init },
    ⟨StartResult.ok, WaitResult.exitErr 1⟩),
   ({ name := "app1", command := "run", type := TaskType.Service },
    ⟨StartResult.ok, WaitResult.ok⟩)]

/-- Sample run: one init task that exits with status 0, then one
service task.  Used by the witnesses below. -/
def tasksPassingInit : List (Process × RunEnv) :=
  [({ name := "init1", command := "setup", type := TaskType.Init },
    ⟨StartResult.ok, WaitResult.ok⟩),
   ({ name := "app1", command := "run", type := TaskType.Service },
    ⟨StartResult.ok, WaitResult.ok⟩)]

/-! ## Helper lemmas -/

theorem isInit_runInitTask (p : Process) (env : RunEnv) :
    isInit (runInitTask p env) = isInit p := by
  rcases env with ⟨s, w⟩
  cases s <;> cases w <;> rfl

theorem closeGate_not_mem_launchEvents (tasks : List (Process × RunEnv)) :
    Event.closeGate ∉ launchEventsOf tasks := by
  simp [launchEventsOf]

theorem closeGate_not_mem_initTrace (l : List (Process × RunEnv)) :
    Event.closeGate ∉ initTraceOf l := by
  simp [initTraceOf]

theorem launch_not_mem_initTrace (l : List (Process × RunEnv)) (nm : String) :
    Event.launchService nm ∉ initTraceOf l := by
  simp [initTraceOf]

theorem evalPhase_not_mem_initTrace (l : List (Process × RunEnv)) (b : Bool) :
    Event.evalPhase b ∉ initTraceOf l := by
  simp [initTraceOf]

theorem initTerminal_not_mem_launchEvents (tasks : List (Process × RunEnv)) (nm : String) :
    Event.initTerminal nm ∉ launchEventsOf tasks := by
  simp [launchEventsOf]

theorem evalPhase_not_mem_launchEvents (tasks : List (Process × RunEnv)) (b : Bool) :
    Event.evalPhase b ∉ launchEventsOf tasks := by
  simp [launchEventsOf]

theorem allInitSuccessOf_iff (tasks : List (Process × RunEnv)) :
    allInitSuccessOf tasks = true ↔
      ∀ pe ∈ initTasksOf tasks, (runInitTask pe.1 pe.2).success = true := by
  simp only [allInitSuccessOf, List.all_eq_true, List.mem_map, Prod.exists,
    forall_exists_index, and_imp]
  constructor
  · intro h pe hpe
    exact h _ pe.1 pe.2 hpe rfl
  · intro h q a b hab hq
    subst hq
    exact h ⟨a, b⟩ hab

theorem stepProcs_service_alive (tasks : List (Process × RunEnv))
    (hfresh : ∀ pe ∈ tasks, isInit pe.1 = false → pe.1.alive = false) :
    ∀ p ∈ stepProcs tasks, isInit p = false → p.alive = false := by
  intro p hp hsvc
  rcases List.mem_map.mp hp with ⟨pe, hpe, rfl⟩
  cases hinit : isInit pe.1 with
  | true => simp [hinit, isInit_runInitTask] at hsvc
  | false =>
    have := hfresh pe hpe hinit
    simpa [hinit] using this

theorem runInitTask_type (p : Process) (env : RunEnv) :
    (runInitTask p env).type = p.type := by
  rcases env with ⟨s, w⟩
  cases s <;> cases w <;> rfl

theorem runInitTask_name (p : Process) (env : RunEnv) :
    (runInitTask p env).name = p.name := by
  rcases env with ⟨s, w⟩
  cases s <;> cases w <;> rfl

theorem healthLoop_spec (procs : List Process) (resp : String) (flag : Bool) :
    healthLoop procs resp flag =
      (resp ++ renderLines procs, flag && procs.all taskHealthy) := by
  induction procs generalizing resp flag with
  | nil => simp [healthLoop, renderLines]
  | cons p rest ih =>
    rcases p with ⟨nm, cmd, ty, al, ec, su⟩
    cases ty <;> cases al <;> cases su <;>
      simp [healthLoop, renderLines, taskLine, taskHealthy, ih, String.append_assoc]

/-! ## C8 — empty task set is reported healthy regardless of gate state -/

/-- C8: for a manager whose task set is empty, the health query returns
HTTP 200 with the `No processes configured` explanatory line, whether
the init gate is open or closed. -/
theorem empty_task_set_health_ok (initDone : Bool) :
    healthCheck [] initDone = (200, "Health Check:\nNo processes configured\n") := by
  cases initDone <;> rfl

/-! ## C3 — health report shape for a non-empty task set -/

/-- C3 (amended): for every non-empty task set, while the init gate is
open the health query returns HTTP 500 without blocking, with the
header line `Health Check:` followed by the single line
`Initialization in progress...`; once the gate is closed it returns the
header followed by exactly one line per task in original insertion
order — services rendered `Healthy`/`Unhealthy` keyed on `alive`, init
tasks `Completed`/`Failed` keyed on `success`, with no exit-code
annotation — and HTTP status 200 if and only if every task line is the
positive variant (500 otherwise). -/
theorem health_report_renders_tasks_without_exit_codes
    (procs : List Process) (h : procs ≠ []) :
    healthCheck procs false = (500, "Health Check:\nInitialization in progress...\n")
    ∧ (healthCheck procs true).2 = "Health Check:\n" ++ renderLines procs
    ∧ ((healthCheck procs true).1 = 200 ↔ ∀ p ∈ procs, taskHealthy p = true)
    ∧ ((healthCheck procs true).1 = 200 ∨ (healthCheck procs true).1 = 500) := by
  have hlen : ¬ procs.length = 0 := by
    simpa [List.length_eq_zero] using h
  refine ⟨?_, ?_, ?_, ?_⟩
  · simp [healthCheck, hlen]
  · simp [healthCheck, hlen, healthLoop_spec]
  · cases hall : procs.all taskHealthy with
    | true =>
      simp [healthCheck, hlen, healthLoop_spec, hall]
      exact fun p hp => List.all_eq_true.mp hall p hp
    | false =>
      simp [healthCheck, hlen, healthLoop_spec, hall]
      simpa using List.all_eq_false.mp hall
  · cases hall : procs.all taskHealthy <;>
      simp [healthCheck, hlen, healthLoop_spec, hall]

/-- Witness for C3: evaluation at a one-service manager. -/
theorem health_report_renders_tasks_without_exit_codes_witness :
    healthCheck [⟨"app1", "run", TaskType.Service, true, 7, false⟩] false
      = (500, "Health Check:\nInitialization in progress...\n")
    ∧ healthCheck [⟨"app1", "run", TaskType.Service, true, 7, false⟩] true
      = (200, "Health Check:\napp1: Healthy\n") := by
  have h := health_report_renders_tasks_without_exit_codes
    [⟨"app1", "run", TaskType.Service, true, 7, false⟩]
    (List.cons_ne_nil _ _)
  refine ⟨h.1, ?_⟩
  have h2 := h.2.1
  have h3 := (h.2.2.1).mpr (by decide)
  have hp : healthCheck [⟨"app1", "run", TaskType.Service, true, 7, false⟩] true
      = ((healthCheck [⟨"app1", "run", TaskType.Service, true, 7, false⟩] true).1,
         (healthCheck [⟨"app1", "run", TaskType.Service, true, 7, false⟩] true).2) := rfl
  rw [hp, h2, h3]
  decide

/-- Counterexample to C3 as stated: the rendered task line carries no
exit-code annotation — two managers that differ only in a service task
exit code of 7 versus 0 produce byte-identical reports, and the actual
body for the exit-code-7 manager is `app1: Healthy` with no annotation. -/
theorem health_report_lines_lack_exit_codes :
    healthCheck [⟨"app1", "run", TaskType.Service, true, 7, false⟩] true
      = healthCheck [⟨"app1", "run", TaskType.Service, true, 0, false⟩] true
    ∧ healthCheck [⟨"app1", "run", TaskType.Service, true, 7, false⟩] true
      = (200, "Health Check:\napp1: Healthy\n") := by
  decide

/-! ## C2 — the init gate latch is closed exactly once, between the
init phase and the service phase -/

/-- C2: in every run of `Start` the `initDone` latch is closed exactly
once — also when the phase failed, and immediately when there are no
init tasks — after the init phase is evaluated (an evaluation event
precedes the close whenever init tasks exist) and strictly before any
service task is launched; at the end of `Start` the gate is closed, and
the model has no event that reopens it. -/
theorem init_gate_closed_exactly_once (tasks initOrder : List (Process × RunEnv)) :
    ∃ pre post,
      (start tasks initOrder).trace = pre ++ Event.closeGate :: post
      ∧ Event.closeGate ∉ pre ∧ Event.closeGate ∉ post
      ∧ (∀ nm, Event.launchService nm ∉ pre)
      ∧ (∀ e ∈ post, ∃ nm, e = Event.launchService nm)
      ∧ (initTasksOf tasks ≠ [] → ∃ b, Event.evalPhase b ∈ pre)
      ∧ (start tasks initOrder).initDone = true := by
  by_cases hemp : (initTasksOf tasks).isEmpty = true
  · refine ⟨[], launchEventsOf tasks, ?_, ?_, ?_, ?_, ?_, ?_, ?_⟩
    · simp [start, hemp]
    · simp
    · exact closeGate_not_mem_launchEvents tasks
    · simp
    · intro e he
      rcases List.mem_map.mp he with ⟨pe, hpe, rfl⟩
      exact ⟨pe.1.name, rfl⟩
    · intro hne
      exact absurd (List.isEmpty_iff.mp hemp) hne
    · simp [start, hemp]
  · by_cases hall : allInitSuccessOf tasks = true
    · refine ⟨initTraceOf initOrder ++ [Event.evalPhase true], launchEventsOf tasks,
        ?_, ?_, ?_, ?_, ?_, ?_, ?_⟩
      · simp [start, hemp, hall]
      · simp [closeGate_not_mem_initTrace]
      · exact closeGate_not_mem_launchEvents tasks
      · intro nm
        simp [launch_not_mem_initTrace]
      · intro e he
        rcases List.mem_map.mp he with ⟨pe, hpe, rfl⟩
        exact ⟨pe.1.name, rfl⟩
      · intro _
        exact ⟨true, by simp⟩
      · simp [start, hemp, hall]
    · refine ⟨initTraceOf initOrder ++ [Event.evalPhase false], [],
        ?_, ?_, ?_, ?_, ?_, ?_, ?_⟩
      · simp [start, hemp, hall]
      · simp [closeGate_not_mem_initTrace]
      · simp
      · intro nm
        simp [launch_not_mem_initTrace]
      · simp
      · intro _
        exact ⟨false, by simp⟩
      · simp [start, hemp, hall]

/-- Witness for C2: the gate is closed in the sample failing run. -/
theorem init_gate_closed_exactly_once_witness :
    (start tasksFailingInit (initTasksOf tasksFailingInit)).initDone = true := by
  obtain ⟨pre, post, -, -, -, -, -, -, hdone⟩ :=
    init_gate_closed_exactly_once tasksFailingInit (initTasksOf tasksFailingInit)
  exact hdone

/-! ## C1 — services are launched iff every init task succeeded -/

/-- C1: `Start` launches the service tasks if and only if every init
task finished with `success=true` (vacuously when there are no init
tasks); when some init task failed, no service task is ever launched —
no launch event occurs, so no service runner runs and no service task
`alive` flag ever becomes true — and `Start` returns a phase failure to
its caller. -/
theorem start_launches_services_iff_all_init_success
    (tasks initOrder : List (Process × RunEnv))
    (hfresh : ∀ pe ∈ tasks, isInit pe.1 = false → pe.1.alive = false) :
    ((start tasks initOrder).err = false ↔
      ∀ pe ∈ initTasksOf tasks, (runInitTask pe.1 pe.2).success = true)
    ∧ ((∀ pe ∈ initTasksOf tasks, (runInitTask pe.1 pe.2).success = true) →
        ∀ pe ∈ serviceTasksOf tasks,
          Event.launchService pe.1.name ∈ (start tasks initOrder).trace)
    ∧ ((¬ ∀ pe ∈ initTasksOf tasks, (runInitTask pe.1 pe.2).success = true) →
        (start tasks initOrder).err = true ∧
        ∀ nm, Event.launchService nm ∉ (start tasks initOrder).trace)
    ∧ (∀ p ∈ (start tasks initOrder).procs, isInit p = false → p.alive = false) := by
  have hiff := allInitSuccessOf_iff tasks
  by_cases hemp : (initTasksOf tasks).isEmpty = true
  · have hnil : initTasksOf tasks = [] := List.isEmpty_iff.mp hemp
    refine ⟨?_, ?_, ?_, ?_⟩
    · simp [start, hemp, hnil]
    · intro _ pe hpe
      simp only [start, hemp, if_true]
      exact List.mem_cons_of_mem _ (List.mem_map.mpr ⟨pe, hpe, rfl⟩)
    · intro hno
      exact absurd (by simp [hnil]) hno
    · simpa [start, hemp] using stepProcs_service_alive tasks hfresh
  · by_cases hall : allInitSuccessOf tasks = true
    · refine ⟨?_, ?_, ?_, ?_⟩
      · exact iff_of_true (by simp [start, hemp, hall]) (hiff.mp hall)
      · intro _ pe hpe
        simp only [start, hemp, hall, if_true, Bool.false_eq_true, if_false,
          List.mem_append, List.mem_cons]
        exact Or.inr (Or.inr (Or.inr (List.mem_map.mpr ⟨pe, hpe, rfl⟩)))
      · intro hno
        exact absurd (hiff.mp hall) hno
      · simpa [start, hemp, hall] using stepProcs_service_alive tasks hfresh
    · have hno : ¬ ∀ pe ∈ initTasksOf tasks, (runInitTask pe.1 pe.2).success = true := by
        intro hforall
        exact hall (hiff.mpr hforall)
      refine ⟨?_, ?_, ?_, ?_⟩
      · exact iff_of_false (by simp [start, hemp, hall]) hno
      · intro hforall
        exact absurd hforall hno
      · intro _
        refine ⟨by simp [start, hemp, hall], ?_⟩
        intro nm
        simp [start, hemp, hall, launch_not_mem_initTrace]
      · simpa [start, hemp, hall] using stepProcs_service_alive tasks hfresh

/-- Witness for C1: in the sample run whose init task exits with
status 1, `Start` reports failure and no service launch event occurs. -/
theorem start_launches_services_iff_all_init_success_witness :
    (start tasksFailingInit (initTasksOf tasksFailingInit)).err = true ∧
    ∀ nm, Event.launchService nm ∉
      (start tasksFailingInit (initTasksOf tasksFailingInit)).trace := by
  have h := start_launches_services_iff_all_init_success
    tasksFailingInit (initTasksOf tasksFailingInit) (by decide)
  exact h.2.2.1 (by decide)

/-! ## C6 — all init tasks reach a terminal state before the phase is
evaluated and the gate closed -/

/-- C6: in every run and for every interleaving of the init-task
goroutines (every permutation `initOrder` of the init partition), the
trace starts with the terminal-state events of all init tasks; the
phase-success evaluation and the gate close only occur after them. -/
theorem init_terminal_states_precede_gate_evaluation
    (tasks initOrder : List (Process × RunEnv))
    (hperm : initOrder.Perm (initTasksOf tasks)) :
    ∃ rest,
      (start tasks initOrder).trace = initTraceOf initOrder ++ rest
      ∧ (∀ nm, Event.initTerminal nm ∉ rest)
      ∧ Event.closeGate ∈ rest
      ∧ (∀ b, Event.evalPhase b ∈ (start tasks initOrder).trace →
          Event.evalPhase b ∈ rest) := by
  by_cases hemp : (initTasksOf tasks).isEmpty = true
  · have hnil : initTasksOf tasks = [] := List.isEmpty_iff.mp hemp
    have h0 : initOrder = [] := List.Perm.eq_nil (hnil ▸ hperm)
    have htr : (start tasks initOrder).trace =
        initTraceOf initOrder ++ (Event.closeGate :: launchEventsOf tasks) := by
      simp [start, hemp, initTraceOf, h0]
    refine ⟨Event.closeGate :: launchEventsOf tasks, htr, ?_, ?_, ?_⟩
    · intro nm
      simp [initTerminal_not_mem_launchEvents]
    · simp
    · intro b hb
      rw [htr, h0] at hb
      simpa [initTraceOf] using hb
  · by_cases hall : allInitSuccessOf tasks = true
    · have htr : (start tasks initOrder).trace =
          initTraceOf initOrder ++
            (Event.evalPhase true :: Event.closeGate :: launchEventsOf tasks) := by
        simp [start, hemp, hall]
      refine ⟨Event.evalPhase true :: Event.closeGate :: launchEventsOf tasks,
        htr, ?_, ?_, ?_⟩
      · intro nm
        simp [initTerminal_not_mem_launchEvents]
      · simp
      · intro b hb
        rw [htr] at hb
        rcases List.mem_append.mp hb with h | h
        · exact absurd h (evalPhase_not_mem_initTrace initOrder b)
        · exact h
    · have htr : (start tasks initOrder).trace =
          initTraceOf initOrder ++ [Event.evalPhase false, Event.closeGate] := by
        simp [start, hemp, hall]
      refine ⟨[Event.evalPhase false, Event.closeGate], htr, ?_, ?_, ?_⟩
      · intro nm
        simp
      · simp
      · intro b hb
        rw [htr] at hb
        rcases List.mem_append.mp hb with h | h
        · exact absurd h (evalPhase_not_mem_initTrace initOrder b)
        · exact h

/-- Witness for C6: in the sample failing run, the trace begins with
the init terminal events. -/
theorem init_terminal_states_precede_gate_evaluation_witness :
    ∃ rest,
      (start tasksFailingInit (initTasksOf tasksFailingInit)).trace =
        initTraceOf (initTasksOf tasksFailingInit) ++ rest := by
  obtain ⟨rest, h1, -, -, -⟩ :=
    init_terminal_states_precede_gate_evaluation tasksFailingInit
      (initTasksOf tasksFailingInit) (List.Perm.refl _)
  exact ⟨rest, h1⟩

/-! ## C4 — terminal state recorded by the init runner -/

/-- C4: for every init task driven by the init runner, starting from
the fresh state `alive=false` that `AddProcess` produces: a launch
failure records `success=false`, `exitCode=-1`, `alive=false` and the
runner returns normally (the orchestrator is not crashed); a normal
exit with status `s` records `exitCode=s` (the recorded code
round-trips the actual status) and `success` exactly when `s = 0`;
signal termination or a wait failure records `exitCode=-1`,
`success=false`; and in every case `alive` is false when the runner
returns. -/
theorem init_runner_records_terminal_state (p : Process) (env : RunEnv)
    (hfresh : p.alive = false) :
    (env.start = StartResult.startErr →
      (runInitTask p env).success = false ∧ (runInitTask p env).exitCode = -1 ∧
        (runInitTask p env).alive = false)
    ∧ (∀ s : Nat, env.start = StartResult.ok → env.wait = waitOf (ProcExit.exited s) →
      (runInitTask p env).exitCode = s ∧
        (runInitTask p env).success = decide (s = 0) ∧
        (runInitTask p env).alive = false)
    ∧ (env.start = StartResult.ok → env.wait = waitOf ProcExit.signaled →
      (runInitTask p env).exitCode = -1 ∧ (runInitTask p env).success = false ∧
        (runInitTask p env).alive = false)
    ∧ (env.start = StartResult.ok → env.wait = WaitResult.otherErr →
      (runInitTask p env).exitCode = -1 ∧ (runInitTask p env).success = false ∧
        (runInitTask p env).alive = false) := by
  rcases env with ⟨st, w⟩
  refine ⟨?_, ?_, ?_, ?_⟩
  · intro hst
    cases st with
    | ok => cases hst
    | startErr => exact ⟨rfl, rfl, hfresh⟩
  · intro s hst hw
    cases st with
    | startErr => cases hst
    | ok =>
      cases s with
      | zero =>
        have hw0 : w = WaitResult.ok := hw
        subst hw0
        refine ⟨by simp [runInitTask], by simp [runInitTask], rfl⟩
      | succ n =>
        have hwn : w = WaitResult.exitErr (n + 1 : Nat) := hw
        subst hwn
        refine ⟨rfl, ?_, rfl⟩
        show ((((n : Int) + 1) == 0) = decide (n + 1 = 0))
        simp
        omega
  · intro hst hw
    cases st with
    | startErr => cases hst
    | ok =>
      have hwn : w = WaitResult.exitErr (-1) := hw
      subst hwn
      exact ⟨rfl, rfl, rfl⟩
  · intro hst hw
    cases st with
    | startErr => cases hst
    | ok =>
      subst hw
      exact ⟨rfl, rfl, rfl⟩

/-- Witness for C4: an init task whose process exits with status 3
records `exitCode=3`, `success=false`, `alive=false`. -/
theorem init_runner_records_terminal_state_witness :
    (runInitTask ⟨"init1", "setup", TaskType.Init, false, 0, false⟩
        ⟨StartResult.ok, WaitResult.exitErr 3⟩).exitCode = 3
    ∧ (runInitTask ⟨"init1", "setup", TaskType.Init, false, 0, false⟩
        ⟨StartResult.ok, WaitResult.exitErr 3⟩).success = false
    ∧ (runInitTask ⟨"init1", "setup", TaskType.Init, false, 0, false⟩
        ⟨StartResult.ok, WaitResult.exitErr 3⟩).alive = false := by
  have h := (init_runner_records_terminal_state
    ⟨"init1", "setup", TaskType.Init, false, 0, false⟩
    ⟨StartResult.ok, WaitResult.exitErr 3⟩ rfl).2.1 3 rfl (by decide)
  simpa using h

/-! ## C5 — what the service runner records when its process exits -/

/-- C5 (amended): for every service task whose process exits after a
successful launch, the service runner sets `alive=false` and leaves
every other field untouched — in particular it does not record the
process exit code: `exitCode` keeps its previous value (the zero value
0 for a task that was never an init task), whatever the wait result
was.  No restart is attempted under any exit code: the runner performs
a single launch and returns after the single wait. -/
theorem service_runner_clears_alive_without_recording_exit
    (p : Process) (env : RunEnv) (h : env.start = StartResult.ok) :
    (runServiceTask p env).alive = false
    ∧ (runServiceTask p env).exitCode = p.exitCode
    ∧ (runServiceTask p env).success = p.success
    ∧ (runServiceTask p env).name = p.name
    ∧ (runServiceTask p env).type = p.type := by
  rcases env with ⟨st, w⟩
  cases st with
  | startErr => cases h
  | ok => exact ⟨rfl, rfl, rfl, rfl, rfl⟩

/-- Witness for C5 (amended): concrete service task whose process exits
with status 3. -/
theorem service_runner_clears_alive_without_recording_exit_witness :
    (runServiceTask ⟨"app1", "run", TaskType.Service, false, 0, false⟩
        ⟨StartResult.ok, WaitResult.exitErr 3⟩).alive = false
    ∧ (runServiceTask ⟨"app1", "run", TaskType.Service, false, 0, false⟩
        ⟨StartResult.ok, WaitResult.exitErr 3⟩).exitCode = 0 := by
  have h := service_runner_clears_alive_without_recording_exit
    ⟨"app1", "run", TaskType.Service, false, 0, false⟩
    ⟨StartResult.ok, WaitResult.exitErr 3⟩ rfl
  exact ⟨h.1, h.2.1⟩

/-- Counterexample to C5 as stated: a service process that exits via an
ExitError carrying status 3 leaves the task `exitCode` at 0, whereas
the init-runner interpretation of the same wait result records 3 — the
service runner does not record the exit code at all (src/main.go
lines 248-252 only log the wait result). -/
theorem service_runner_drops_exit_code :
    (runServiceTask ⟨"app1", "run", TaskType.Service, false, 0, false⟩
        ⟨StartResult.ok, WaitResult.exitErr 3⟩).exitCode = 0
    ∧ (runInitTask ⟨"app1", "run", TaskType.Service, false, 0, false⟩
        ⟨StartResult.ok, WaitResult.exitErr 3⟩).exitCode = 3
    ∧ (0 : Int) ≠ 3 := by
  decide

/-! ## C7 — the alias/command split rule -/

theorem splitFirstColon_eq_none_iff : ∀ l : List Char, splitFirstColon l = none ↔ ':' ∉ l
  | [] => by simp [splitFirstColon]
  | c :: rest => by
    by_cases hc : c = ':'
    · subst hc
      simp [splitFirstColon]
    · cases hs : splitFirstColon rest with
      | none =>
        have hr := (splitFirstColon_eq_none_iff rest).mp hs
        simp [splitFirstColon, hc, hs, hr, Ne.symm hc]
      | some ab =>
        have hmem : ':' ∈ rest := by
          by_contra hno
          have := (splitFirstColon_eq_none_iff rest).mpr hno
          simp [this] at hs
        simp [splitFirstColon, hc, hs, hmem]

theorem splitFirstColon_append (pre post : List Char) (hpre : ':' ∉ pre) :
    splitFirstColon (pre ++ ':' :: post) = some (pre, post) := by
  induction pre with
  | nil => simp [splitFirstColon]
  | cons c cs ih =>
    have hc : ¬ c = ':' := by
      intro h
      exact hpre (by simp [h])
    have hcs : ':' ∉ cs := fun h => hpre (List.mem_cons_of_mem c h)
    simp [splitFirstColon, hc, ih hcs]

/-- C7 (amended): for every raw command-line item, the first colon —
wherever it appears in the string, before or after whitespace — is
treated as the alias separator: the alias is the trimmed text before
it and the command the trimmed text after it.  Only when the item
contains no colon at all is the whole trimmed string the command, with
the alias auto-generated as the prefix (`"init"` for `-i` items,
`"app"` for `-c` items) followed by the 1-based item index. -/
theorem first_colon_always_splits_alias (pfx : String) (i : Nat) (s : String) :
    (':' ∉ s.toList →
      parseCommandItem pfx i s = (pfx ++ Nat.repr (i + 1), trimSpace s))
    ∧ (∀ pre post : List Char, s.toList = pre ++ ':' :: post → ':' ∉ pre →
      parseCommandItem pfx i s =
        (trimSpace pre.asString, trimSpace post.asString)) := by
  constructor
  · intro h
    have h2 : splitFirstColon s.toList = none :=
      (splitFirstColon_eq_none_iff _).mpr h
    unfold parseCommandItem
    rw [h2]
  · intro pre post hs hpre
    have h2 : splitFirstColon s.toList = some (pre, post) := by
      rw [hs]
      exact splitFirstColon_append pre post hpre
    unfold parseCommandItem
    rw [h2]

/-- Witness for C7 (amended): `db: migrate` with prefix `init` at index
0 splits into alias `db` and command `migrate`. -/
theorem first_colon_always_splits_alias_witness :
    parseCommandItem "init" 0 "db: migrate" =
      (trimSpace "db".toList.asString, trimSpace " migrate".toList.asString)
    ∧ (trimSpace "db".toList.asString, trimSpace " migrate".toList.asString) =
      ("db", "migrate") := by
  refine ⟨?_, by decide⟩
  exact (first_colon_always_splits_alias "init" 0 "db: migrate").2
    "db".toList " migrate".toList (by decide) (by decide)

/-- Counterexample to C7 as stated: in `echo hi:world` the first colon
appears after whitespace, so the claimed rule keeps the whole string as
the command with the auto-generated alias `app1`; the code still splits
at that colon, yielding alias `echo hi` and command `world`
(src/main.go lines 366-376 use `strings.SplitN(cmdStr, ":", 2)` with no
whitespace condition). -/
theorem colon_after_whitespace_still_splits :
    parseCommandItem "app" 0 "echo hi:world" = ("echo hi", "world")
    ∧ specSplitCommand "app" 0 "echo hi:world" = ("app1", "echo hi:world")
    ∧ parseCommandItem "app" 0 "echo hi:world" ≠
        specSplitCommand "app" 0 "echo hi:world" := by
  decide

/-! ## C9 — the lock discipline on the per-task field triple -/

/-- C9 evaluation: the code does not hold the per-task mutex for every
access to the triple.  In `runInitTask` the writes of `alive`
(src/main.go lines 199 and 225) happen outside the lock, as does the
`exitCode` read in the log statement on line 209, and in
`HealthCheckHandler` the read of a service task `alive` (line 289)
takes no lock — while the `exitCode`/`success` writes do hold it. -/
theorem alive_field_accessed_without_lock :
    (⟨Field.alive, AccessKind.write, false⟩ ∈
      runInitTaskAccesses ⟨StartResult.ok, WaitResult.ok⟩)
    ∧ (⟨Field.exitCode, AccessKind.read, false⟩ ∈
      runInitTaskAccesses ⟨StartResult.ok, WaitResult.exitErr 1⟩)
    ∧ (⟨Field.alive, AccessKind.read, false⟩ ∈
      healthTaskAccesses ⟨"app1", "run", TaskType.Service, true, 0, false⟩)
    ∧ (⟨Field.alive, AccessKind.write, false⟩ ∈
      runServiceTaskAccesses ⟨StartResult.ok, WaitResult.ok⟩)
    ∧ ¬ (∀ a ∈ runInitTaskAccesses ⟨StartResult.ok, WaitResult.ok⟩,
        a.underLock = true) := by
  decide

/-! ## C10 — the prefixed output writer -/

/-- C10 evaluation: the empty-input clause holds — writing an empty
slice returns count 0 and forwards nothing — but the per-segment clause
fails on the middle segment of `a\nb\nc`: the writer forwards it as
`[n] \nb` (the prefix attaches before the newline, i.e. to the end of
the previous output line) instead of `[n] b`, and the returned count is
4 for the 5-byte input. -/
theorem prefixed_writer_middle_segment_garbled :
    prefixedWriterWrite "n".toList [] = (0, [])
    ∧ prefixedWriterWrite "n".toList "a\nb\nc".toList =
        (4, ["[n] a".toList, "[n] \nb".toList, "[n] c".toList])
    ∧ "b".toList ∈ goSplitNl "a\nb\nc".toList
    ∧ "[n] b".toList ∉ (prefixedWriterWrite "n".toList "a\nb\nc".toList).2
    ∧ "a\nb\nc".toList.length = 5 := by
  decide

end God
